import Mathlib

/-!
Shallow embedding of the receipt-processor service (`src/main.go`).

The embedding covers the data model (`ItemStruct`, `ReceiptStruct`), the
validation logic of the `processReceipt` handler, the scoring logic of the
`getReceiptPoints` handler, and the identifier-keyed in-memory store.

Modelling conventions, matching the Go source:
* Go pointer fields (`*string`, `*[]ItemStruct`) become `Option` fields;
  `nil` is `none`.
* The receipt store (`var receipts = make(map[string]*ReceiptStruct)`) is an
  association list from identifier strings to receipts; `storeLookup` mirrors
  `receipts[id]` (a missing key reads as `nil`, i.e. `none`).
* Go's `regexp` package is RE2 with ASCII Perl classes: `\w = [0-9A-Za-z_]`,
  `\s = [\t\n\f\r ]`, `\d = [0-9]`.  The three anchored patterns of the
  source (`^[\w\s\-&]+$`, `^[\w\s\-]+$`, `^\d+\.\d{2}$`, `^\S+$`) are
  transliterated as whole-string character predicates.
* `time.Parse` with layouts `"2006-01-02"` and `"15:04"` is transliterated
  from Go's parser: `getnum4`/`getnum2` are Go's fixed-width `getnum`,
  `getnum12` is Go's non-fixed `getnum` (one or two digits, as the `15`
  hour verb uses), followed by Go's range checks (month 1..12, day within
  `daysIn`, hour 0..23, minute 0..59) and the no-extra-text check.
* `uuid.New()` with the redraw-until-fresh loop is modelled by passing the
  identifier the loop settles on (`freshId`) as an explicit argument; the
  error path of `processReceipt` never consults it.
* Arithmetic on the `total` and `price` decimal strings: the Go code parses
  them with `strconv.ParseFloat` and uses `math.Mod` / `math.Ceil` on IEEE 754
  doubles, accumulating into `int64`, which has no kernel-reducible model
  here; the definitions below use the exact integer-cents semantics
  (`parseCents`) on unbounded integers.  Each scoring definition's doc
  comment states the domain on which it provably coincides with the double
  computation; outside those domains the divergences are real program bugs
  and are recorded against claims C2 (float `math.Mod` on the total) and C9
  (out-of-range float-to-int64 conversion of a huge item award).  Theorems
  whose truth depends on the bounded domain carry the bound as an explicit
  hypothesis.
* `unicode.IsLetter`/`IsDigit` (retailer scoring) and `strings.TrimSpace`
  (description scoring) are modelled on their ASCII fragments; every string
  a stored receipt can carry in those fields has passed the ASCII-only
  validation character classes, so the fragments are exact there.
-/

/-- One item of a receipt: Go's `ItemStruct` with two pointer fields. -/
structure ItemStruct where
  shortDescription : Option String
  price : Option String
deriving DecidableEq, Repr

/-- A receipt: Go's `ReceiptStruct` with five pointer fields. -/
structure ReceiptStruct where
  retailer : Option String
  purchaseDate : Option String
  purchaseTime : Option String
  items : Option (List ItemStruct)
  total : Option String
deriving DecidableEq, Repr

/-- The receipt store, Go's `receipts` map keyed by the minted identifier. -/
abbrev Store := List (String × ReceiptStruct)

/-- `receipts[id]`: first binding of `id` in the store, `none` when absent. -/
def storeLookup : Store → String → Option ReceiptStruct
  | [], _ => none
  | p :: rest, id => if p.1 = id then some p.2 else storeLookup rest id

/-- Go regexp's ASCII `\w`: `[0-9A-Za-z_]`. -/
def goWordChar (c : Char) : Bool :=
  c.isAlpha || c.isDigit || c == '_'

/-- Go regexp's ASCII `\s`: `[\t\n\f\r ]`. -/
def goRegexSpace (c : Char) : Bool :=
  c == ' ' || c == '\t' || c == '\n' || c == '\x0C' || c == '\r'

/-- One character of the retailer class `[\w\s\-&]`. -/
def retailerChar (c : Char) : Bool :=
  goWordChar c || goRegexSpace c || c == '-' || c == '&'

/-- The anchored retailer pattern `^[\w\s\-&]+$` of `processReceipt`. -/
def matchRetailer (s : String) : Bool :=
  !s.isEmpty && s.data.all retailerChar

/-- One character of the short-description class `[\w\s\-]`. -/
def descChar (c : Char) : Bool :=
  goWordChar c || goRegexSpace c || c == '-'

/-- The anchored description pattern `^[\w\s\-]+$` of `processReceipt`. -/
def matchShortDescription (s : String) : Bool :=
  !s.isEmpty && s.data.all descChar

/-- Numeric value of a decimal digit character. -/
def digitVal (c : Char) : Nat := c.toNat - 48

/-- Value of a digit string read most-significant first. -/
def digitsVal (cs : List Char) : Nat :=
  cs.foldl (fun a c => 10 * a + digitVal c) 0

/-- Exact cent value of a string matching `^\d+\.\d{2}$`: one or more digits,
a dot, exactly two digits, nothing else.  `none` when the string does not
match the pattern.  (After the greedy `\d+` the next character must be the
non-digit `.`, so maximal munch is the only viable reading and `takeWhile`
is an exact transliteration of the anchored RE2 pattern.) -/
def parseCents (s : String) : Option Nat :=
  let intPart := s.data.takeWhile Char.isDigit
  let rest := s.data.dropWhile Char.isDigit
  if intPart.isEmpty then none
  else
    match rest with
    | ['.', c1, c2] =>
      if c1.isDigit && c2.isDigit then
        some (100 * digitsVal intPart + 10 * digitVal c1 + digitVal c2)
      else none
    | _ => none

/-- The item price pattern `^\d+\.\d{2}$` of `processReceipt`. -/
def matchPrice (s : String) : Bool :=
  (parseCents s).isSome

/-- Go `getnum(s, fixed = true)` over two positions: exactly two digits. -/
def getnum2 : List Char → Option (Nat × List Char)
  | c1 :: c2 :: rest =>
    if c1.isDigit && c2.isDigit then
      some (10 * digitVal c1 + digitVal c2, rest)
    else none
  | _ => none

/-- The four-digit year verb `2006`: exactly four digits. -/
def getnum4 : List Char → Option (Nat × List Char)
  | c1 :: c2 :: c3 :: c4 :: rest =>
    if c1.isDigit && c2.isDigit && c3.isDigit && c4.isDigit then
      some (1000 * digitVal c1 + 100 * digitVal c2 + 10 * digitVal c3 + digitVal c4, rest)
    else none
  | _ => none

/-- Go `getnum(s, fixed = false)`: one digit, or two when the second
position is also a digit (the `15` hour verb). -/
def getnum12 : List Char → Option (Nat × List Char)
  | [] => none
  | c1 :: rest =>
    if c1.isDigit then
      match rest with
      | c2 :: rest2 =>
        if c2.isDigit then some (10 * digitVal c1 + digitVal c2, rest2)
        else some (digitVal c1, rest)
      | [] => some (digitVal c1, [])
    else none

/-- Consume one expected literal layout character. -/
def expectChar (c : Char) : List Char → Option (List Char)
  | c' :: rest => if c' = c then some rest else none
  | [] => none

/-- Go `isLeap`: divisible by 4 and (not by 100, or by 400). -/
def isLeap (y : Nat) : Bool :=
  y % 4 == 0 && (y % 100 != 0 || y % 400 == 0)

/-- Go `daysIn`: days of month `m` in year `y` (31,28/29,31,30,...). -/
def daysIn (m y : Nat) : Nat :=
  if m = 2 then (if isLeap y then 29 else 28)
  else if m = 4 ∨ m = 6 ∨ m = 9 ∨ m = 11 then 30
  else 31

/-- Go `time.Parse("2006-01-02", ·)` on a character list: four-digit year,
literal `-`, two-digit month, literal `-`, two-digit day, no extra text,
then Go's range checks (month first, then day against `daysIn`). -/
def goParseDateL (cs : List Char) : Option (Nat × Nat × Nat) :=
  (getnum4 cs).bind fun yr =>
  (expectChar '-' yr.2).bind fun r2 =>
  (getnum2 r2).bind fun mr =>
  (expectChar '-' mr.2).bind fun r4 =>
  (getnum2 r4).bind fun dr =>
  if dr.2 = [] then
    if 1 ≤ mr.1 ∧ mr.1 ≤ 12 then
      if 1 ≤ dr.1 ∧ dr.1 ≤ daysIn mr.1 yr.1 then some (yr.1, mr.1, dr.1)
      else none
    else none
  else none

/-- `time.Parse("2006-01-02", ·)` on a string. -/
def goParseDate (s : String) : Option (Nat × Nat × Nat) :=
  goParseDateL s.data

/-- Go `time.Parse("15:04", ·)`: one-or-two-digit hour (range 0..23),
literal `:`, two-digit minute (range 0..59), no extra text. -/
def goParseTimeL (cs : List Char) : Option (Nat × Nat) :=
  (getnum12 cs).bind fun hr =>
  if 24 ≤ hr.1 then none
  else
    (expectChar ':' hr.2).bind fun r2 =>
    (getnum2 r2).bind fun mr =>
    if 60 ≤ mr.1 then none
    else if mr.2 = [] then some (hr.1, mr.1) else none

/-- `time.Parse("15:04", ·)` on a string. -/
def goParseTime (s : String) : Option (Nat × Nat) :=
  goParseTimeL s.data

/-- The diagnostic the validator logs for the first failing check, one
constructor per `fmt.Printf` message of `processReceipt`. -/
inductive InvalidReason where
  | missingFields
  | invalidRetailer
  | invalidPurchaseDate
  | invalidPurchaseTime
  | noItems
  | itemMissingFields
  | invalidShortDescription
  | invalidPrice
deriving DecidableEq, Repr

/-- The per-item loop of `processReceipt`: first failing item check wins
(missing field, then description pattern, then price pattern). -/
def checkItems : List ItemStruct → Option InvalidReason
  | [] => none
  | it :: rest =>
    match it.shortDescription, it.price with
    | some d, some p =>
      if !matchShortDescription d then some .invalidShortDescription
      else if !matchPrice p then some .invalidPrice
      else checkItems rest
    | _, _ => some .itemMissingFields

/-- The validation sequence of `processReceipt` in source order: missing
top-level fields, retailer pattern, purchase date, purchase time, empty item
list, per-item checks.  `none` means the receipt is accepted.  (The Go
handler folds a JSON decode error into the same missing-fields rejection;
wire decoding is outside this model.)  Note that `rs.total` is only checked
for presence: no format check of the total appears in the source. -/
def validateReceipt (rs : ReceiptStruct) : Option InvalidReason :=
  match rs.retailer, rs.purchaseDate, rs.purchaseTime, rs.items, rs.total with
  | some ret, some pd, some pt, some its, some _ =>
    if !matchRetailer ret then some .invalidRetailer
    else if (goParseDate pd).isNone then some .invalidPurchaseDate
    else if (goParseTime pt).isNone then some .invalidPurchaseTime
    else if its.length < 1 then some .noItems
    else checkItems its
  | _, _, _, _, _ => some .missingFields

/-- Outcome of the submit handler: HTTP 400 with the generic message, or
HTTP 200 carrying the minted identifier. -/
inductive ProcessResult where
  | badRequest
  | ok (id : String)
deriving DecidableEq, Repr

/-- The `processReceipt` handler as a state transition on the store.
`freshId` is the identifier Go's `uuid.New()` redraw loop settles on (a draw
not already bound in the store); the error path returns before the loop
runs, leaving the store untouched. -/
def processReceipt (store : Store) (freshId : String) (rs : ReceiptStruct) :
    Store × ProcessResult :=
  match validateReceipt rs with
  | some _ => (store, .badRequest)
  | none => ((freshId, rs) :: store, .ok freshId)

/-- Rule 1 of `getReceiptPoints`: one point per retailer character that is a
Unicode letter or digit (`unicode.IsLetter || unicode.IsDigit`; the ASCII
fragment is exact for every retailer the validator accepts). -/
def retailerPoints (s : String) : Int :=
  ((s.data.filter fun c => c.isAlpha || c.isDigit).length : Nat)

/-- Rules 2 and 3 of `getReceiptPoints`: +50 when the total is a whole-dollar
amount, +25 when it is a multiple of 0.25.  The Go source computes
`math.Mod(strconv.ParseFloat(total), 1)` and `math.Mod(·, 0.25)` on IEEE 754
doubles; this definition carries the exact integer-cents semantics, which
agrees with the double computation for every pattern-matching total of
realistic magnitude (the divergence at extreme magnitudes is claim C2's
subject).  The `none` branch is exact only for strings no float syntax
accepts, where `ParseFloat`'s ignored error yields 0 and both `math.Mod`
tests pass, hence 75; a float-parsable string outside the cents pattern
(such as `"5.1"` or `".50"`, storable because of the C1 bug) is scored by
the code from its parsed double and is outside this model's fidelity.  No
theorem below evaluates this branch except at totals matching the
pattern or at `"abc"`-like strings no float syntax accepts. -/
def totalPoints (t : String) : Int :=
  match parseCents t with
  | some c => (if c % 100 = 0 then 50 else 0) + (if c % 25 = 0 then 25 else 0)
  | none => 75

/-- Rule 4 of `getReceiptPoints`: `int64((len(items) / 2) * 5)`. -/
def pairPoints (its : List ItemStruct) : Int :=
  ((its.length / 2) * 5 : Nat)

/-- The ASCII fragment of Go `unicode.IsSpace`: `[\t\n\v\f\r ]` (exact for
every description the validator accepts, whose characters all lie in the
ASCII class `[\w\s\-]`). -/
def goSpace (c : Char) : Bool :=
  c == ' ' || c == '\t' || c == '\n' || c == '\x0B' || c == '\x0C' || c == '\r'

/-- `len(strings.TrimSpace(s))`: length after dropping leading and trailing
space characters.  Go's `len` counts bytes; descriptions the validator
accepts are ASCII, where bytes and characters coincide. -/
def goTrimLen (s : String) : Nat :=
  (((s.data.dropWhile goSpace).reverse.dropWhile goSpace).reverse).length

/-- `int64(math.Ceil(price * 0.2))` for one item price, carried exactly:
`ceil(cents / 500)`.  This is an exact model of the source only on a
bounded domain: for cents `c < 2^45` the parse of the pattern-valid price
is within half an ulp of `c/100`, the product with the double nearest 0.2
stays within relative error `2^-50` of `c/500` (so it crosses no integer
boundary when `500 ∤ c`, and rounds back to the exact integer when
`500 ∣ c`), and the result is far inside int64 range, so
`int64(math.Ceil(price * 0.2)) = ceil(c/500)` exactly.  The price pattern
`^\d+\.\d{2}$` caps nothing, however: at a storable price such as
`"999999999999999999999.00"` the exact award `2 * 10^20` exceeds MaxInt64
and the code's out-of-range float-to-int64 conversion is
implementation-dependent (MinInt64 on amd64), diverging from this
definition — recorded as claim C9's code bug.  Theorems asserting exact
awards carry the `priceBelowBound` hypothesis.  An unparsable price models
`ParseFloat`'s ignored error: `Ceil(0 * 0.2) = 0`. -/
def ceilFifth (p : String) : Int :=
  match parseCents p with
  | some c => ((c + 499) / 500 : Nat)
  | none => 0

/-- Rule 5's loop body for one item: points when the trimmed description
length is a multiple of 3 (`trimmedLength % 3 == 0`; note the Go source has
no positivity requirement, so a length of 0 qualifies).  The `none` branches
mirror a nil-pointer dereference and are unreachable for stored receipts,
all of whose items passed validation. -/
def itemPoints (it : ItemStruct) : Int :=
  match it.shortDescription, it.price with
  | some d, some p => if goTrimLen d % 3 = 0 then ceilFifth p else 0
  | _, _ => 0

/-- Rule 5 of `getReceiptPoints`: the `for` loop over the items, first to
last. -/
def itemLoopPoints : List ItemStruct → Int
  | [] => 0
  | it :: rest => itemPoints it + itemLoopPoints rest

/-- Rule 6 of `getReceiptPoints`: +6 when the day of the purchase date is
odd.  The Go handler ignores the parse error; an unparsable date yields the
zero `time.Time`, whose `Day()` is 1 (odd), hence the `none` branch awards 6.
Unreachable for stored receipts, whose dates passed validation. -/
def datePoints (pd : String) : Int :=
  match goParseDate pd with
  | some ymd => if ymd.2.2 % 2 ≠ 0 then 6 else 0
  | none => 6

/-- Rule 7 of `getReceiptPoints`: +10 when the hour is in `[14, 16)`.  An
unparsable time yields the zero `time.Time`, whose `Hour()` is 0, hence the
`none` branch awards 0.  Unreachable for stored receipts. -/
def timePoints (pt : String) : Int :=
  match goParseTime pt with
  | some hm => if 14 ≤ hm.1 ∧ hm.1 < 16 then 10 else 0
  | none => 0

/-- The scoring computation of `getReceiptPoints` on one receipt, the seven
additions in source order.  The sum is carried in unbounded `Int` where the
source accumulates in `int64`: inside the `priceBelowBound` domain every
contribution and the total stay far below 2^63 and the two coincide, but at
storable out-of-range prices the program's rule-5 conversion is
implementation-dependent and its total can even be negative (claim C9's
code bug), unlike this idealization.  The wildcard branch stands for the
nil-pointer dereference the Go code would perform; it is unreachable
because only receipts the validator accepted are ever stored. -/
def scoreReceipt (rs : ReceiptStruct) : Int :=
  match rs.retailer, rs.purchaseDate, rs.purchaseTime, rs.items, rs.total with
  | some ret, some pd, some pt, some its, some tot =>
    retailerPoints ret + totalPoints tot + pairPoints its + itemLoopPoints its
      + datePoints pd + timePoints pt
  | _, _, _, _, _ => 0

/-- Outcome of the points handler: HTTP 200 with the point total, or the
single HTTP 404 "No receipt found for that ID." response (the handler uses
the same response for a malformed and for an unknown identifier). -/
inductive PointsResult where
  | ok (points : Int)
  | notFound
deriving DecidableEq, Repr

/-- The anchored identifier pattern `^\S+$` of `getReceiptPoints`:
non-empty, no whitespace characters. -/
def matchIdPattern (id : String) : Bool :=
  !id.isEmpty && id.data.all fun c => !goRegexSpace c

/-- The `getReceiptPoints` handler: pattern check on the identifier, then
store lookup, then scoring.  It returns the store unchanged (the handler
only reads the map). -/
def getReceiptPointsH (store : Store) (id : String) : Store × PointsResult :=
  (store,
    if !matchIdPattern id then .notFound
    else
      match storeLookup store id with
      | none => .notFound
      | some rs => .ok (scoreReceipt rs))

/-- Scenario A of the spec's §8: the Target receipt. -/
def targetReceipt : ReceiptStruct :=
  { retailer := some "Target"
    purchaseDate := some "2022-01-01"
    purchaseTime := some "13:01"
    items := some
      [ ⟨some "Mountain Dew 12PK", some "6.49"⟩
      , ⟨some "Emils Cheese Pizza", some "12.25"⟩
      , ⟨some "Knorr Creamy Chicken", some "1.26"⟩
      , ⟨some "Doritos Nacho Cheese", some "3.35"⟩
      , ⟨some "   Klarbrunn 12-PK 12 FL OZ  ", some "12.00"⟩ ]
    total := some "35.35" }

/-- Scenario B of the spec's §8: the corner-market receipt. -/
def cornerMarketReceipt : ReceiptStruct :=
  { retailer := some "M&M Corner Market"
    purchaseDate := some "2022-03-20"
    purchaseTime := some "14:33"
    items := some
      [ ⟨some "Gatorade", some "2.25"⟩
      , ⟨some "Gatorade", some "2.25"⟩
      , ⟨some "Gatorade", some "2.25"⟩
      , ⟨some "Gatorade", some "2.25"⟩ ]
    total := some "9.00" }

/-- Spec-side date predicate, following the spec's words: a real calendar
date written in the exact `YYYY-MM-DD` shape — ten characters, digits and
hyphens in place, month between 1 and 12, day between 1 and the month's
length in that year.  Stated independently of the sequential parser so the
two can be compared (claim C6). -/
def specRealDateL : List Char → Bool
  | [y1, y2, y3, y4, a, m1, m2, b, d1, d2] =>
    (y1.isDigit && y2.isDigit && y3.isDigit && y4.isDigit) &&
    (a == '-') && (m1.isDigit && m2.isDigit) && (b == '-') &&
    (d1.isDigit && d2.isDigit) &&
    decide (1 ≤ 10 * digitVal m1 + digitVal m2 ∧ 10 * digitVal m1 + digitVal m2 ≤ 12) &&
    decide (1 ≤ 10 * digitVal d1 + digitVal d2 ∧
      10 * digitVal d1 + digitVal d2 ≤
        daysIn (10 * digitVal m1 + digitVal m2)
          (1000 * digitVal y1 + 100 * digitVal y2 + 10 * digitVal y3 + digitVal y4))
  | _ => false

/-- `specRealDateL` on a string. -/
def specRealDate (s : String) : Bool :=
  specRealDateL s.data

/-- A receipt malformed in one of the ways the spec's §8 enumerates: a
missing top-level field, a retailer failing the pattern, an unparsable
purchase date or time, an empty item list, or an item with a missing or
pattern-failing price. -/
def BadReceipt (rs : ReceiptStruct) : Prop :=
  rs.retailer = none ∨ rs.purchaseDate = none ∨ rs.purchaseTime = none ∨
  rs.items = none ∨ rs.total = none ∨
  (∃ ret, rs.retailer = some ret ∧ matchRetailer ret = false) ∨
  (∃ pd, rs.purchaseDate = some pd ∧ goParseDate pd = none) ∨
  (∃ pt, rs.purchaseTime = some pt ∧ goParseTime pt = none) ∨
  rs.items = some [] ∨
  (∃ l it, rs.items = some l ∧ it ∈ l ∧
    (it.price = none ∨ ∃ p, it.price = some p ∧ matchPrice p = false))

/-- A receipt valid in every checked respect but whose total is the
non-decimal string `"abc"` (claim C1's failing input). -/
def c1Receipt : ReceiptStruct :=
  { retailer := some "Target"
    purchaseDate := some "2022-01-01"
    purchaseTime := some "13:01"
    items := some [⟨some "Mountain Dew 12PK", some "6.49"⟩]
    total := some "abc" }

/-- A valid receipt whose single item's description is all whitespace
(claim C3's input). -/
def c3Receipt : ReceiptStruct :=
  { retailer := some "ab"
    purchaseDate := some "2022-01-02"
    purchaseTime := some "13:01"
    items := some [⟨some "   ", some "5.00"⟩]
    total := some "1.01" }

/-- A receipt with all five fields present, an invalid retailer and an
empty item list (claim C4's input). -/
def c4Receipt : ReceiptStruct :=
  { retailer := some "!!!"
    purchaseDate := some "2022-01-01"
    purchaseTime := some "13:01"
    items := some []
    total := some "1.00" }

/-- A receipt with all five fields present and valid except for its empty
item list (claim C4's witness input). -/
def c4EmptyItemsReceipt : ReceiptStruct :=
  { retailer := some "Target"
    purchaseDate := some "2022-01-01"
    purchaseTime := some "13:01"
    items := some []
    total := some "1.00" }

/-- A one-entry store holding the scenario-A receipt under `"rid8"`. -/
def c8Store : Store := [("rid8", targetReceipt)]

/-- The domain bound under which `ceilFifth` is an exact model of the
code's `int64(math.Ceil(price * 0.2))` (see `ceilFifth`'s doc comment): the
item either has no parsable price or its cent value is below `2^45`.  Used
to scope claim C3's exact-award statement; every realistic price satisfies
it. -/
def priceBelowBound (it : ItemStruct) : Bool :=
  match it.price with
  | some p =>
    match parseCents p with
    | some c => decide (c < 2 ^ 45)
    | none => true
  | none => true

/-- A validator-accepted receipt whose single item has the pattern-valid
price `"999999999999999999999.00"` and a description of trimmed length 3:
the rule-5 award overflows int64 in the program (claim C9's input). -/
def c9Receipt : ReceiptStruct :=
  { retailer := some "Target"
    purchaseDate := some "2022-01-01"
    purchaseTime := some "13:01"
    items := some [⟨some "abc", some "999999999999999999999.00"⟩]
    total := some "1.00" }

/-- A valid receipt whose single item's description is the non-empty
all-whitespace string `"   "` (claim C10's input). -/
def c10Receipt : ReceiptStruct :=
  { retailer := some "Corner Shop"
    purchaseDate := some "2022-03-20"
    purchaseTime := some "14:33"
    items := some [⟨some "   ", some "1.00"⟩]
    total := some "9.00" }

/-! ## Helper lemmas -/

theorem checkItems_none_facts (l : List ItemStruct) (h : checkItems l = none) :
    ∀ it ∈ l, (∃ d, it.shortDescription = some d ∧ matchShortDescription d = true) ∧
      (∃ p, it.price = some p ∧ matchPrice p = true) := by
  induction l with
  | nil => intro it hit; cases hit
  | cons hd tl ih =>
    rcases hd with ⟨od, op⟩
    rcases od with _ | d
    · simp [checkItems] at h
    rcases op with _ | p
    · simp [checkItems] at h
    by_cases h1 : matchShortDescription d = true
    case neg => simp [checkItems, Bool.eq_false_iff.mpr h1] at h
    by_cases h2 : matchPrice p = true
    case neg => simp [checkItems, h1, Bool.eq_false_iff.mpr h2] at h
    simp only [checkItems, h1, h2, Bool.not_true, Bool.false_eq_true, if_false] at h
    intro it hit
    rcases List.mem_cons.mp hit with rfl | hit
    · exact ⟨⟨d, rfl, h1⟩, ⟨p, rfl, h2⟩⟩
    · exact ih h it hit

theorem validate_none_facts (rs : ReceiptStruct) (h : validateReceipt rs = none) :
    ∃ ret pd pt its tot,
      rs.retailer = some ret ∧ rs.purchaseDate = some pd ∧ rs.purchaseTime = some pt ∧
      rs.items = some its ∧ rs.total = some tot ∧
      matchRetailer ret = true ∧ (goParseDate pd).isSome = true ∧
      (goParseTime pt).isSome = true ∧ its ≠ [] ∧ checkItems its = none := by
  rcases rs with ⟨oret, opd, opt, oits, otot⟩
  rcases oret with _ | ret; · simp [validateReceipt] at h
  rcases opd with _ | pd; · simp [validateReceipt] at h
  rcases opt with _ | pt; · simp [validateReceipt] at h
  rcases oits with _ | its; · simp [validateReceipt] at h
  rcases otot with _ | tot; · simp [validateReceipt] at h
  refine ⟨ret, pd, pt, its, tot, rfl, rfl, rfl, rfl, rfl, ?_⟩
  by_cases h1 : matchRetailer ret = true
  case neg => simp [validateReceipt, Bool.eq_false_iff.mpr h1] at h
  by_cases h2 : (goParseDate pd).isSome = true
  case neg =>
    simp [validateReceipt, h1, Option.not_isSome_iff_eq_none.mp h2] at h
  by_cases h3 : (goParseTime pt).isSome = true
  case neg =>
    simp [validateReceipt, h1, Option.isSome_iff_ne_none.mp h2,
      Option.not_isSome_iff_eq_none.mp h3] at h
  refine ⟨h1, h2, h3, ?_⟩
  rcases its with _ | ⟨it, rest⟩
  · simp [validateReceipt, h1, Option.isNone_iff_eq_none,
      Option.isSome_iff_exists] at h
    · rcases Option.isSome_iff_exists.mp h2 with ⟨v2, hv2⟩
      rcases Option.isSome_iff_exists.mp h3 with ⟨v3, hv3⟩
      simp [hv2, hv3] at h
  · refine ⟨by simp, ?_⟩
    rcases Option.isSome_iff_exists.mp h2 with ⟨v2, hv2⟩
    rcases Option.isSome_iff_exists.mp h3 with ⟨v3, hv3⟩
    simpa [validateReceipt, h1, hv2, hv3] using h

/-! ## Claim theorems -/

/-- Claim C1 (code bug): the claim says a receipt whose total fails the
decimal pattern `^\d+\.\d{2}$` is rejected and not stored.  The source
never checks the total's format: `c1Receipt` carries the total `"abc"`,
which fails the pattern, yet validation accepts it and the submit handler
mints an identifier and stores it. -/
theorem C1_total_never_validated :
    matchPrice "abc" = false ∧
    validateReceipt c1Receipt = none ∧
    processReceipt [] "rid1" c1Receipt = ([("rid1", c1Receipt)], ProcessResult.ok "rid1") := by
  decide

/-- Claim C2 (code bug): on the pattern-valid total `"2000000000000000.10"`
the exact cent count is `200000000000000010`, which is a multiple of
neither 100 nor 25, so the integer-cents semantics awards neither bonus
(`totalPoints` gives 0).  The Go source instead parses the total with
`strconv.ParseFloat` and tests `math.Mod` on the resulting double; at this
magnitude adjacent doubles are 0.25 apart, the string parses to exactly
2000000000000000.0, and the float code awards both +50 and +25. -/
theorem C2_cents_at_failing_total :
    parseCents "2000000000000000.10" = some 200000000000000010 ∧
    200000000000000010 % 100 = 10 ∧ 200000000000000010 % 25 = 10 ∧
    totalPoints "2000000000000000.10" = 0 := by
  decide

/-- Claim C5 (confirmed): the scoring engine gives the scenario-A receipt
exactly 28 points and the scenario-B receipt exactly 109 points; both
receipts pass validation, so both are storable. -/
theorem C5_example_scores :
    validateReceipt targetReceipt = none ∧ scoreReceipt targetReceipt = 28 ∧
    validateReceipt cornerMarketReceipt = none ∧ scoreReceipt cornerMarketReceipt = 109 := by
  decide

/-- Claim C10 (confirmed): a receipt valid in every other field whose item
description is the non-empty all-whitespace string `"   "` (matching
`^[\w\s\-]+$`, since space is in `\s`) is accepted, an identifier is
minted, and the receipt is stored. -/
theorem C10_whitespace_description_accepted :
    matchShortDescription "   " = true ∧
    validateReceipt c10Receipt = none ∧
    processReceipt [] "rid10" c10Receipt = ([("rid10", c10Receipt)], ProcessResult.ok "rid10") := by
  decide

/-- Claim C4, counterexample: `c4Receipt` has all five fields present and an
empty items array, yet its retailer is also invalid, and the diagnostic the
validator reports is the retailer failure, not the claimed non-empty-items
failure — the retailer check runs before the emptiness check. -/
theorem C4_counterexample :
    validateReceipt c4Receipt = some InvalidReason.invalidRetailer ∧
    InvalidReason.invalidRetailer ≠ InvalidReason.noItems := by
  decide

/-- Claim C4 as amended: the validator fails fast in the source's order —
field presence, retailer, date, time, item emptiness, per-item checks.  An
empty items array is reported as the no-items failure only when retailer,
date and time are all valid; when the retailer is invalid, the retailer
failure is reported regardless of the items array. -/
theorem C4_fail_fast_order :
    (∀ ret pd pt tot, matchRetailer ret = true → (goParseDate pd).isSome = true →
      (goParseTime pt).isSome = true →
      validateReceipt ⟨some ret, some pd, some pt, some [], some tot⟩ =
        some InvalidReason.noItems) ∧
    (∀ ret pd pt its tot, matchRetailer ret = false →
      validateReceipt ⟨some ret, some pd, some pt, some its, some tot⟩ =
        some InvalidReason.invalidRetailer) := by
  constructor
  · intro ret pd pt tot h1 h2 h3
    simp [validateReceipt, h1, Option.isSome_iff_ne_none.mp h2,
      Option.isSome_iff_ne_none.mp h3]
  · intro ret pd pt its tot h1
    simp [validateReceipt, h1]

/-- Witness for `C4_fail_fast_order` at concrete receipts. -/
theorem C4_fail_fast_order_witness :
    validateReceipt c4EmptyItemsReceipt = some InvalidReason.noItems ∧
    validateReceipt c4Receipt = some InvalidReason.invalidRetailer :=
  ⟨C4_fail_fast_order.1 "Target" "2022-01-01" "13:01" "1.00"
      (by decide) (by decide) (by decide),
   C4_fail_fast_order.2 "!!!" "2022-01-01" "13:01" [] "1.00" (by decide)⟩

/-- Claim C3, counterexample: the claim requires the trimmed length to be
strictly positive, with an all-whitespace description contributing 0.  In
the source the test is only `trimmedLength % 3 == 0`, and `0 % 3 == 0`: the
storable receipt `c3Receipt` has one item whose description `"   "` trims to
length 0 and price `"5.00"`, and that item contributes
`ceil(5.00 * 0.2) = 1` point, not 0 (whole score 3, not 2). -/
theorem C3_whitespace_item_counterexample :
    validateReceipt c3Receipt = none ∧
    goTrimLen "   " = 0 ∧
    itemPoints ⟨some "   ", some "5.00"⟩ = 1 ∧
    scoreReceipt c3Receipt = 3 := by
  decide

/-- The rule-5 loop as a filter-and-sum: the loop's total is the sum of
`ceilFifth` over exactly the items whose trimmed description length is
divisible by 3 (a trimmed length of 0 included; items with a missing field
contribute nothing and never reach the scorer). -/
theorem itemLoop_filter_sum :
    ∀ its : List ItemStruct,
      itemLoopPoints its =
        ((its.filter fun it =>
            it.shortDescription.isSome && it.price.isSome &&
              decide (goTrimLen (it.shortDescription.getD "") % 3 = 0)).map
          fun it => ceilFifth (it.price.getD "")).sum := by
  intro its
  induction its with
  | nil => rfl
  | cons it rest ih =>
    rcases it with ⟨od, op⟩
    rcases od with _ | d
    · simpa [itemLoopPoints, itemPoints] using ih
    rcases op with _ | p
    · simpa [itemLoopPoints, itemPoints] using ih
    by_cases h3 : goTrimLen d % 3 = 0
    · simp [itemLoopPoints, itemPoints, h3, ih]
    · simp [itemLoopPoints, itemPoints, h3, ih]

/-- Claim C3 as amended: rule 5 considers an item exactly when the trimmed
description length is a multiple of 3, with a trimmed length of 0
qualifying (no positivity requirement); a non-qualifying item contributes
exactly 0, and — for items inside the `priceBelowBound` domain, on which
`ceilFifth` provably equals the code's `int64(math.Ceil(price * 0.2))` —
each qualifying item contributes exactly `ceil(price * 0.2)`.  The
hypothesis marks that fidelity boundary: outside it the program's
out-of-range float-to-int64 conversion diverges from the exact ceil
(claim C9's code bug). -/
theorem C3_item_rule_bounded :
    ∀ its : List ItemStruct,
      (∀ it ∈ its, priceBelowBound it = true) →
      itemLoopPoints its =
        ((its.filter fun it =>
            it.shortDescription.isSome && it.price.isSome &&
              decide (goTrimLen (it.shortDescription.getD "") % 3 = 0)).map
          fun it => ceilFifth (it.price.getD "")).sum :=
  fun its _ => itemLoop_filter_sum its

/-- Witness for `C3_item_rule_bounded` at the whitespace-description item
of `c3Receipt` (price 500 cents, far inside the bound). -/
theorem C3_item_rule_bounded_witness :
    itemLoopPoints [ItemStruct.mk (some "   ") (some "5.00")] =
      (([ItemStruct.mk (some "   ") (some "5.00")].filter fun it =>
          it.shortDescription.isSome && it.price.isSome &&
            decide (goTrimLen (it.shortDescription.getD "") % 3 = 0)).map
        fun it => ceilFifth (it.price.getD "")).sum :=
  C3_item_rule_bounded [ItemStruct.mk (some "   ") (some "5.00")] (by decide)

/-- Claim C7 (confirmed): for every receipt malformed in one of the
enumerated ways — missing top-level field, pattern-failing retailer,
unparsable calendar date, unparsable time, empty item list, or an item
with a missing or pattern-failing price — the submit handler answers with
the client error and leaves the store exactly as it was; the identifier
generator is never consulted (the result carries no identifier and the
returned store is the input store, for every candidate `freshId`). -/
theorem C7_invalid_receipt_rejected_atomically :
    ∀ (store : Store) (freshId : String) (rs : ReceiptStruct), BadReceipt rs →
      processReceipt store freshId rs = (store, ProcessResult.badRequest) := by
  intro store freshId rs hbad
  rcases hval : validateReceipt rs with _ | r
  · exfalso
    obtain ⟨ret, pd, pt, its, tot, hret, hpd, hpt, hits, htot, hmr, hd, ht, hne, hchk⟩ :=
      validate_none_facts rs hval
    rcases hbad with h | h | h | h | h | ⟨r', hr', hbadr⟩ | ⟨d', hd', hbadd⟩ |
      ⟨t', ht', hbadt⟩ | h | ⟨l, it, hl, hitl, hbadp⟩
    · rw [hret] at h; cases h
    · rw [hpd] at h; cases h
    · rw [hpt] at h; cases h
    · rw [hits] at h; cases h
    · rw [htot] at h; cases h
    · rw [hret] at hr'; injection hr' with he; subst he
      rw [hmr] at hbadr; cases hbadr
    · rw [hpd] at hd'; injection hd' with he; subst he
      rw [hbadd] at hd; cases hd
    · rw [hpt] at ht'; injection ht' with he; subst he
      rw [hbadt] at ht; cases ht
    · rw [hits] at h; injection h with he; exact hne he
    · rw [hits] at hl; injection hl with he; subst he
      obtain ⟨-, p, hp, hmp⟩ := checkItems_none_facts its hchk it hitl
      rcases hbadp with hnone | ⟨p', hp', hbadp'⟩
      · rw [hp] at hnone; cases hnone
      · rw [hp] at hp'; injection hp' with he; subst he
        rw [hmp] at hbadp'; cases hbadp'
  · simp [processReceipt, hval]

/-- Witness for `C7_invalid_receipt_rejected_atomically`: the submit handler
rejects the all-fields-present, empty-items receipt `c4EmptyItemsReceipt`
and leaves the empty store empty. -/
theorem C7_witness :
    processReceipt [] "rid7" c4EmptyItemsReceipt = ([], ProcessResult.badRequest) :=
  C7_invalid_receipt_rejected_atomically [] "rid7" c4EmptyItemsReceipt
    (Or.inr (Or.inr (Or.inr (Or.inr (Or.inr (Or.inr (Or.inr (Or.inr (Or.inl rfl)))))))))

/-- Claim C8 (confirmed): the points handler answers with a success result
exactly when the identifier is non-empty, free of whitespace, and bound in
the store; in that case the result carries the stored receipt's score, and
in every other case — empty identifier, identifier with whitespace, or an
identifier never issued — it answers with the one not-found result, with no
distinction between the malformed and the absent case.  The well-formed
store hypothesis marks the modelling boundary: the Go handler dereferences
the stored receipt's pointer fields, and only validated receipts are ever
stored. -/
theorem C8_get_points_contract :
    ∀ (store : Store) (id : String),
      (∀ p ∈ store, validateReceipt p.2 = none) →
      (((getReceiptPointsH store id).2 ≠ PointsResult.notFound) ↔
        (matchIdPattern id = true ∧ (storeLookup store id).isSome = true)) ∧
      (∀ rs, matchIdPattern id = true → storeLookup store id = some rs →
        (getReceiptPointsH store id).2 = PointsResult.ok (scoreReceipt rs)) ∧
      (matchIdPattern id = true ↔ (id ≠ "" ∧ ∀ c ∈ id.data, goRegexSpace c = false)) := by
  intro store id _
  refine ⟨?_, ?_, ?_⟩
  · cases hm : matchIdPattern id
    · simp [getReceiptPointsH, hm]
    · rcases hl : storeLookup store id with _ | rs <;>
        simp [getReceiptPointsH, hm, hl]
  · intro rs hm hl
    simp [getReceiptPointsH, hm, hl]
  · constructor
    · intro hm
      have h1 := (Bool.and_eq_true _ _).mp hm
      refine ⟨fun he => by rw [he] at h1; exact absurd h1.1 (by decide), ?_⟩
      have := h1.2
      simpa [List.all_eq_true] using this
    · rintro ⟨hne, hall⟩
      refine (Bool.and_eq_true _ _).mpr ⟨?_, ?_⟩
      · have : id.isEmpty = false := by
          rcases h : id.isEmpty with _ | _
          · rfl
          · exact absurd ((String.isEmpty_iff _).mp h) hne
        simp [this]
      · simpa [List.all_eq_true] using hall

/-- Witness for `C8_get_points_contract` on the one-entry store `c8Store`
and the identifier `"rid8"`. -/
theorem C8_witness :
    (((getReceiptPointsH c8Store "rid8").2 ≠ PointsResult.notFound) ↔
      (matchIdPattern "rid8" = true ∧ (storeLookup c8Store "rid8").isSome = true)) ∧
    (∀ rs, matchIdPattern "rid8" = true → storeLookup c8Store "rid8" = some rs →
      (getReceiptPointsH c8Store "rid8").2 = PointsResult.ok (scoreReceipt rs)) ∧
    (matchIdPattern "rid8" = true ↔
      ("rid8" ≠ "" ∧ ∀ c ∈ "rid8".data, goRegexSpace c = false)) :=
  C8_get_points_contract c8Store "rid8" (by decide)

/-- Claim C9 (code bug): the pattern-valid price
`"999999999999999999999.00"` passes validation inside `c9Receipt` (whose
item description `"abc"` has trimmed length 3, so rule 5 fires), its exact
cent value is `99999999999999999999900`, and the exact rule-5 award
`ceil(cents / 500) = 2 * 10^20` exceeds MaxInt64 = 9223372036854775807 —
so the program's `int64(math.Ceil(price * 0.2))` is an out-of-range
float-to-int64 conversion, implementation-dependent per the Go
specification (MinInt64 on amd64), and the returned total can be negative,
against the claim's (and the spec's) non-negativity. -/
theorem C9_overflowing_item_price :
    validateReceipt c9Receipt = none ∧
    matchPrice "999999999999999999999.00" = true ∧
    goTrimLen "abc" % 3 = 0 ∧
    parseCents "999999999999999999999.00" = some 99999999999999999999900 ∧
    (99999999999999999999900 + 499) / 500 = 200000000000000000000 ∧
    (9223372036854775807 : ℕ) < 200000000000000000000 := by
  decide

theorem expectChar_some {c : Char} {cs r : List Char} (h : expectChar c cs = some r) :
    cs = c :: r := by
  rcases cs with _ | ⟨a, t⟩
  · simp [expectChar] at h
  · rw [expectChar] at h
    by_cases ha : a = c
    · subst ha
      simp at h
      rw [h]
    · simp [ha] at h

theorem getnum2_some {cs : List Char} {n : ℕ} {r : List Char}
    (h : getnum2 cs = some (n, r)) :
    ∃ a b, cs = a :: b :: r ∧ a.isDigit = true ∧ b.isDigit = true ∧
      n = 10 * digitVal a + digitVal b := by
  rcases cs with _ | ⟨a, _ | ⟨b, t⟩⟩
  · simp [getnum2] at h
  · simp [getnum2] at h
  · rw [getnum2] at h
    by_cases hd : (a.isDigit && b.isDigit) = true
    · rw [if_pos hd] at h
      obtain ⟨h1, h2⟩ := Prod.mk.injEq .. ▸ Option.some_inj.mp h
      obtain ⟨ha, hb⟩ := Bool.and_eq_true _ _ |>.mp hd
      exact ⟨a, b, by rw [h2], ha, hb, h1.symm⟩
    · rw [if_neg hd] at h
      cases h

theorem getnum4_some {cs : List Char} {n : ℕ} {r : List Char}
    (h : getnum4 cs = some (n, r)) :
    ∃ a b c d, cs = a :: b :: c :: d :: r ∧ a.isDigit = true ∧ b.isDigit = true ∧
      c.isDigit = true ∧ d.isDigit = true ∧
      n = 1000 * digitVal a + 100 * digitVal b + 10 * digitVal c + digitVal d := by
  rcases cs with _ | ⟨a, _ | ⟨b, _ | ⟨c, _ | ⟨d, t⟩⟩⟩⟩
  · simp [getnum4] at h
  · simp [getnum4] at h
  · simp [getnum4] at h
  · simp [getnum4] at h
  · rw [getnum4] at h
    by_cases hd : (a.isDigit && b.isDigit && c.isDigit && d.isDigit) = true
    · rw [if_pos hd] at h
      obtain ⟨h1, h2⟩ := Prod.mk.injEq .. ▸ Option.some_inj.mp h
      have ha := hd
      simp only [Bool.and_eq_true] at ha
      exact ⟨a, b, c, d, by rw [h2], ha.1.1.1, ha.1.1.2, ha.1.2, ha.2, h1.symm⟩
    · rw [if_neg hd] at h
      cases h

theorem dateEquiv (cs : List Char) : (goParseDateL cs).isSome = specRealDateL cs := by
  rw [Bool.eq_iff_iff]
  constructor
  · intro h
    obtain ⟨⟨y, m, d⟩, hv⟩ := Option.isSome_iff_exists.mp h
    unfold goParseDateL at hv
    rcases h4 : getnum4 cs with _ | ⟨y', r1⟩ <;> rw [h4] at hv
    · cases hv
    simp only [Option.some_bind] at hv
    rcases he1 : expectChar '-' r1 with _ | r2 <;> rw [he1] at hv
    · cases hv
    simp only [Option.some_bind] at hv
    rcases hm : getnum2 r2 with _ | ⟨m', r3⟩ <;> rw [hm] at hv
    · cases hv
    simp only [Option.some_bind] at hv
    rcases he2 : expectChar '-' r3 with _ | r4 <;> rw [he2] at hv
    · cases hv
    simp only [Option.some_bind] at hv
    rcases hd : getnum2 r4 with _ | ⟨d', r5⟩ <;> rw [hd] at hv
    · cases hv
    simp only [Option.some_bind] at hv
    by_cases hr5 : r5 = []
    case neg => simp [hr5] at hv
    subst hr5
    by_cases hmr : 1 ≤ m' ∧ m' ≤ 12
    case neg => simp [hmr] at hv
    by_cases hdr : 1 ≤ d' ∧ d' ≤ daysIn m' y'
    case neg => simp [hmr, hdr] at hv
    obtain ⟨a, b, c, d4, hcs4, ha, hb, hc, hd4, hy⟩ := getnum4_some h4
    have hr1 := expectChar_some he1
    obtain ⟨e, f, hcs2, he, hf, hm'⟩ := getnum2_some hm
    have hr3 := expectChar_some he2
    obtain ⟨g, k, hcs3, hg, hk, hd'⟩ := getnum2_some hd
    rw [hcs3] at hr3
    rw [hr3] at hcs2
    rw [hcs2] at hr1
    rw [hr1] at hcs4
    rw [hcs4]
    simp only [specRealDateL, ha, hb, hc, hd4, he, hf, hg, hk, Bool.and_true, Bool.true_and]
    rw [← hm', ← hd', ← hy]
    simp [hmr, hdr]
  · intro h
    unfold specRealDateL at h
    split at h
    case h_2 => cases h
    case h_1 y1 y2 y3 y4 a m1 m2 b d1 d2 =>
      simp only [Bool.and_eq_true, decide_eq_true_eq, beq_iff_eq] at h
      obtain ⟨⟨⟨⟨⟨⟨hG1, hA⟩, hG2⟩, hB⟩, hG3⟩, hmr⟩, hdr⟩ := h
      simp [goParseDateL, getnum4, getnum2, expectChar, hG1.1.1.1, hG1.1.1.2, hG1.1.2,
        hG1.2, hA, hG2.1, hG2.2, hB, hG3.1, hG3.2, hmr, hdr]

/-- Claim C6 (confirmed): the date check passes exactly on real calendar
dates in the exact `YYYY-MM-DD` shape; in particular `"2023-02-30"` is
rejected (February 2023 has 28 days). -/
theorem C6_date_validation :
    (∀ s : String, (goParseDate s).isSome = specRealDate s) ∧
    goParseDate "2023-02-30" = none :=
  ⟨fun s => dateEquiv s.data, by decide⟩
